import Mathlib

/-!
Shallow embedding of the demuxing/decoding pipeline of `src/main.cpp`
(an FFmpeg demuxing/decoding driver).

Modelling conventions:
* C `int` status codes become `Int`; FFmpeg success is `0`, failure is negative.
* The external libav engines (decoder, image copy, dictionaries) are
  collaborators: their observable behaviour at each call site is an input of
  the model (`DecBehavior` for `avcodec_send_packet`/`avcodec_receive_frame`),
  or a direct model of their documented contract (`av_get_bytes_per_sample`,
  the `AVDictionary` operations).
* The raw video destination file is modelled by the number of bytes written
  to it (the byte values are produced by the external `av_image_copy`); the
  raw audio destination file is modelled by its byte contents, since the
  audio formatter copies bytes straight out of the frame's first plane.
-/

namespace Demuxing

/-- AVSampleFormat codes from libavutil/samplefmt.h. -/
def AV_SAMPLE_FMT_U8 : Int := 0

def AV_SAMPLE_FMT_S16 : Int := 1

def AV_SAMPLE_FMT_S32 : Int := 2

def AV_SAMPLE_FMT_FLT : Int := 3

def AV_SAMPLE_FMT_DBL : Int := 4

def AV_SAMPLE_FMT_U8P : Int := 5

def AV_SAMPLE_FMT_S16P : Int := 6

def AV_SAMPLE_FMT_S32P : Int := 7

def AV_SAMPLE_FMT_FLTP : Int := 8

def AV_SAMPLE_FMT_DBLP : Int := 9

def AV_SAMPLE_FMT_S64 : Int := 10

def AV_SAMPLE_FMT_S64P : Int := 11

/-- Model of libavutil's `av_get_bytes_per_sample` (external collaborator):
the documented per-format sample sizes, 0 for an invalid format. -/
def av_get_bytes_per_sample (fmt : Int) : Nat :=
  if fmt = AV_SAMPLE_FMT_U8 ∨ fmt = AV_SAMPLE_FMT_U8P then 1
  else if fmt = AV_SAMPLE_FMT_S16 ∨ fmt = AV_SAMPLE_FMT_S16P then 2
  else if fmt = AV_SAMPLE_FMT_S32 ∨ fmt = AV_SAMPLE_FMT_S32P ∨
          fmt = AV_SAMPLE_FMT_FLT ∨ fmt = AV_SAMPLE_FMT_FLTP then 4
  else if fmt = AV_SAMPLE_FMT_DBL ∨ fmt = AV_SAMPLE_FMT_DBLP ∨
          fmt = AV_SAMPLE_FMT_S64 ∨ fmt = AV_SAMPLE_FMT_S64P then 8
  else 0

/-- Entry of the lookup table in `get_format_from_sample_fmt`
(src/main.cpp lines 215-223). -/
structure sample_fmt_entry where
  sample_fmt : Int
  fmt_be : String
  fmt_le : String
deriving Repr, DecidableEq

/-- The `sample_fmt_entries` table from src/main.cpp lines 217-223. -/
def sample_fmt_entries : List sample_fmt_entry :=
  [⟨AV_SAMPLE_FMT_U8, "u8", "u8"⟩,
   ⟨AV_SAMPLE_FMT_S16, "s16be", "s16le"⟩,
   ⟨AV_SAMPLE_FMT_S32, "s32be", "s32le"⟩,
   ⟨AV_SAMPLE_FMT_FLT, "f32be", "f32le"⟩,
   ⟨AV_SAMPLE_FMT_DBL, "f64be", "f64le"⟩]

/-- `get_format_from_sample_fmt` (src/main.cpp lines 212-238): sets `*fmt` to
NULL, scans the table in order and returns 0 with the endianness-resolved name
(`AV_NE` selects `fmt_be` on a big-endian build, `fmt_le` otherwise) at the
first match, else returns -1 leaving `*fmt` NULL.  The pair is
(return value, final `*fmt`). -/
def get_format_from_sample_fmt (bigendian : Bool) (sample_fmt : Int) :
    Int × Option String :=
  match sample_fmt_entries.find? (fun e => sample_fmt == e.sample_fmt) with
  | some entry => (0, some (if bigendian then entry.fmt_be else entry.fmt_le))
  | none => (-1, none)

/-- The fields of `AVFrame` the pipeline reads.  Plane buffers are byte lists;
`extended_data` models the C `extended_data` pointer array (which aliases
`data` for the plane counts seen here). -/
structure Frame where
  width : Int
  height : Int
  format : Int
  nb_samples : Nat
  extended_data : List (List Nat)
  pts : Int
deriving Repr, DecidableEq

/-- The file-level mutable state of src/main.cpp that the formatters touch:
the geometry captured at stream open (lines 283-285), the raw-buffer size
returned by `av_image_alloc` (line 292), the frame counters, and the two
destination files.  `video_dst_file_bytes` is the number of bytes written to
the video file; `audio_dst_file_data` is the byte contents of the audio
file. -/
structure St where
  width : Int
  height : Int
  pix_fmt : Int
  video_dst_bufsize : Nat
  video_frame_count : Nat
  audio_frame_count : Nat
  video_dst_file_bytes : Nat
  audio_dst_file_data : List Nat
deriving Repr, DecidableEq

/-- `output_video_frame` (src/main.cpp lines 68-97): on a geometry change it
reports the error and returns -1 writing nothing; otherwise it bumps the
video frame counter, packs the planes via the external `av_image_copy` into
`video_dst_data`, and writes `video_dst_bufsize` bytes to the video file,
returning 0. -/
def output_video_frame (st : St) (frame : Frame) : Int × St :=
  if frame.width ≠ st.width ∨ frame.height ≠ st.height ∨
      frame.format ≠ st.pix_fmt then
    (-1, st)
  else
    (0, { st with
            video_frame_count := st.video_frame_count + 1,
            video_dst_file_bytes :=
              st.video_dst_file_bytes + st.video_dst_bufsize })

/-- `output_audio_frame` (src/main.cpp lines 99-118): computes
`unpadded_linesize = nb_samples * av_get_bytes_per_sample(format)`, bumps the
audio frame counter, writes that many bytes of the first plane
(`extended_data[0]`) to the audio file, and returns 0. -/
def output_audio_frame (st : St) (frame : Frame) : Int × St :=
  let unpadded_linesize := frame.nb_samples * av_get_bytes_per_sample frame.format
  (0, { st with
          audio_frame_count := st.audio_frame_count + 1,
          audio_dst_file_data :=
            st.audio_dst_file_data ++
              (frame.extended_data.headD []).take unpadded_linesize })

/-- How the `avcodec_receive_frame` loop of `decode_packet` ends once the
frames of a submission are exhausted: `AVERROR(EAGAIN)`, `AVERROR_EOF`, or
some other (negative) error code `-(1+k)`. -/
inductive RecvTail where
  | eagain
  | eof
  | recvErr (k : Nat)
deriving Repr, DecidableEq

/-- Observable behaviour of the external decoder for one
`avcodec_send_packet` call: the send return value and, when the send is
accepted, the finite run of frames `avcodec_receive_frame` yields before the
terminating `RecvTail`. -/
structure DecBehavior where
  sendRet : Int
  frames : List Frame
  tail : RecvTail
deriving Repr, DecidableEq

/-- Ownership events of the pipeline: packet read / packet release, frame
handed out by the decoder / frame release. -/
inductive Ev where
  | pktRead
  | pktUnref
  | frameRecv
  | frameUnref
deriving Repr, DecidableEq

/-- The receive-format-unref loop inside `decode_packet` (src/main.cpp lines
134-157): each frame is formatted by the stream-appropriate formatter, then
unconditionally unreferenced (line 154, before the error check on line 155);
a negative formatter result returns immediately, leaving later frames
unretrieved.  Returns (status, state, ownership events). -/
def process_frames (isVideo : Bool) : List Frame → St → Int × St × List Ev
  | [], st => (0, st, [])
  | f :: fs, st =>
    let r := if isVideo then output_video_frame st f else output_audio_frame st f
    if r.1 < 0 then
      (r.1, r.2, [Ev.frameRecv, Ev.frameUnref])
    else
      let rest := process_frames isVideo fs r.2
      (rest.1, rest.2.1, Ev.frameRecv :: Ev.frameUnref :: rest.2.2)

/-- `decode_packet` (src/main.cpp lines 120-160): a rejected submission is
logged and its negative code returned at once; otherwise all available frames
are pulled and formatted, and the terminating receive result is mapped to 0
(`EAGAIN`/`EOF`) or returned as the error code. -/
def decode_packet (isVideo : Bool) (beh : DecBehavior) (st : St) :
    Int × St × List Ev :=
  if beh.sendRet < 0 then
    (beh.sendRet, st, [])
  else
    let r := process_frames isVideo beh.frames st
    if r.1 < 0 then r
    else
      match beh.tail with
      | RecvTail.eagain => (0, r.2.1, r.2.2)
      | RecvTail.eof => (0, r.2.1, r.2.2)
      | RecvTail.recvErr k => (-(1 + (k : Int)), r.2.1, r.2.2)

/-- A packet as the read loop sees it: its stream index, together with the
external decoder's behaviour should this packet be submitted. -/
structure Pkt where
  stream_index : Int
  beh : DecBehavior
deriving Repr, DecidableEq

/-- The selected stream indices (`video_stream_idx`, `audio_stream_idx`;
-1 when the kind was not selected). -/
structure LoopCfg where
  video_stream_idx : Int
  audio_stream_idx : Int
deriving Repr, DecidableEq

/-- The read loop of `demuxer_decode` (src/main.cpp lines 335-357): while
`av_read_frame` succeeds, route the packet to the matching decoder (packets
of other streams leave `ret` untouched), unreference the packet
unconditionally (line 349), break on a negative `ret`, break once
`frame_nums` reaches 300, else increment `frame_nums` and continue.  The
input list supplies the packets `av_read_frame` would deliver; the empty
list is a read failure.  Returns (state, final ret, ownership events). -/
def demuxer_read_loop (cfg : LoopCfg) :
    List Pkt → St → Int → Nat → St × Int × List Ev
  | [], st, ret, _ => (st, ret, [])
  | p :: ps, st, ret, frame_nums =>
    let d :=
      if p.stream_index = cfg.video_stream_idx then
        decode_packet true p.beh st
      else if p.stream_index = cfg.audio_stream_idx then
        decode_packet false p.beh st
      else
        (ret, st, [])
    let evs := Ev.pktRead :: (d.2.2 ++ [Ev.pktUnref])
    if d.1 < 0 then
      (d.2.1, d.1, evs)
    else if frame_nums ≥ 300 then
      (d.2.1, d.1, evs)
    else
      let rest := demuxer_read_loop cfg ps d.2.1 d.1 (frame_nums + 1)
      (rest.1, rest.2.1, evs ++ rest.2.2)

/-- The flush block after the read loop (src/main.cpp lines 361-365): the
video decoder, when open, is flushed by submitting the NULL packet; the audio
flush call is commented out in the source.  Returns the state together with
how many flush submissions each decoder received. -/
def demuxer_flush (videoOpen : Bool) (_audioOpen : Bool)
    (vBeh : DecBehavior) (_aBeh : DecBehavior) (st : St) : St × Nat × Nat :=
  if videoOpen then
    ((decode_packet true vBeh st).2.1, 1, 0)
  else
    (st, 0, 0)

/-- The audio destination filename of `demuxer_decode` is hard-coded NULL
(src/main.cpp line 258); only the video destination gets a real path. -/
def audio_dst_filename : Option String := none

/-- Outcome of `fopen(audio_dst_filename, "wb")` (src/main.cpp line 297):
`fopen` yields a stream only for a non-NULL path, and `audio_dst_filename`
is pinned to NULL, so this open can never succeed. -/
def audio_dst_fopen_ok : Bool := audio_dst_filename.isSome

/-- Outcomes of the external calls during the setup phase of
`demuxer_decode` (src/main.cpp lines 274-312) that are genuinely open:
whether `open_codec_context` succeeded for each media kind, whether the
video destination `fopen` (on its real, compiled-in path) succeeded, and
whether `av_image_alloc` succeeded.  The audio destination `fopen` is not an
input: its filename is pinned to NULL, so it deterministically fails
(`audio_dst_fopen_ok`). -/
structure SetupEnv where
  videoCtxOk : Bool
  audioCtxOk : Bool
  videoFileOk : Bool
  allocOk : Bool
deriving Repr, DecidableEq

/-- Result of the setup phase: a thrown fatal error, or the pair of selection
flags (`video_stream ≠ NULL`, `audio_stream ≠ NULL`) with which the run
proceeds. -/
inductive SetupResult where
  | fatalVideoFile
  | fatalAlloc
  | fatalAudioFile
  | fatalNoStream
  | ok (videoSel : Bool) (audioSel : Bool)
deriving Repr, DecidableEq

/-- The neither-stream check (src/main.cpp lines 308-312): the run aborts
with `fatalNoStream` exactly when neither selection flag is set. -/
def demuxer_setup_check (videoSel : Bool) (audioSel : Bool) : SetupResult :=
  if ¬ audioSel ∧ ¬ videoSel then SetupResult.fatalNoStream
  else SetupResult.ok videoSel audioSel

/-- The audio half of setup (src/main.cpp lines 295-303): an
`open_codec_context` failure for audio is tolerated; on success the run
opens the audio destination file — `fopen` on the NULL
`audio_dst_filename` — and throws when that yields no stream, which it
always does. -/
def demuxer_setup_audio (env : SetupEnv) (videoSel : Bool) : SetupResult :=
  if env.audioCtxOk then
    if audio_dst_fopen_ok then demuxer_setup_check videoSel true
    else SetupResult.fatalAudioFile
  else demuxer_setup_check videoSel false

/-- The setup phase of `demuxer_decode` (src/main.cpp lines 274-312): try to
open the video codec context (failure tolerated); on success open the video
destination file and allocate the raw image buffer (failures throw); then the
audio half and the neither-stream check. -/
def demuxer_setup (env : SetupEnv) : SetupResult :=
  if env.videoCtxOk then
    if env.videoFileOk then
      if env.allocOk then demuxer_setup_audio env true
      else SetupResult.fatalAlloc
    else SetupResult.fatalVideoFile
  else demuxer_setup_audio env false

/-- An `AVDictionary` as an association list of (key, value) entries. -/
abbrev Dict : Type := List (String × String)

/-- Model of `av_dict_get` with default flags: first entry with the key. -/
def av_dict_get (d : Dict) (k : String) : Option String :=
  (d.find? (fun kv => kv.1 == k)).map (fun kv => kv.2)

/-- Model of `av_dict_set` with a NULL value (external collaborator contract:
a NULL value deletes the existing entries for the key). -/
def av_dict_set_null (d : Dict) (k : String) : Dict :=
  d.filter (fun kv => kv.1 != k)

/-- Model of `av_dict_set(dst, k, v, AV_DICT_DONT_OVERWRITE)`: keep the
existing entry if the key is present, otherwise append. -/
def av_dict_set_dont_overwrite (d : Dict) (k v : String) : Dict :=
  if (av_dict_get d k).isSome then d else d ++ [(k, v)]

/-- Model of `av_dict_copy(dst, src, AV_DICT_DONT_OVERWRITE)`: set each entry
of `src` into `dst` in order, without overwriting. -/
def av_dict_copy_dont_overwrite (dst src : Dict) : Dict :=
  src.foldl (fun d kv => av_dict_set_dont_overwrite d kv.1 kv.2) dst

/-- The metadata block of `encode_video` (src/main.cpp lines 474-478): copy
the source container's metadata into the freshly allocated (hence empty)
output context, then delete the four stripped keys. -/
def encode_video_metadata (srcMeta : Dict) : Dict :=
  let d0 := av_dict_copy_dont_overwrite [] srcMeta
  let d1 := av_dict_set_null d0 "creation_time"
  let d2 := av_dict_set_null d1 "company_name"
  let d3 := av_dict_set_null d2 "product_name"
  av_dict_set_null d3 "product_version"

/-- The four metadata keys stripped on the transcode path. -/
def strippedKeys : List String :=
  ["creation_time", "company_name", "product_name", "product_version"]

/-- One step of the ownership discipline: the running pair is
(live packets, live frames); a step is rejected (`none`) when a unit is
acquired while another of its kind is still live, or released while none is
live. -/
def evStep (e : Ev) (s : Nat × Nat) : Option (Nat × Nat) :=
  match e, s with
  | Ev.pktRead, (0, f) => some (1, f)
  | Ev.pktUnref, (1, f) => some (0, f)
  | Ev.frameRecv, (p, 0) => some (p, 1)
  | Ev.frameUnref, (p, 1) => some (p, 0)
  | _, _ => none

/-- Run the ownership discipline over an event trace. -/
def evRun : List Ev → Nat × Nat → Option (Nat × Nat)
  | [], s => some s
  | e :: rest, s =>
    match evStep e s with
    | some s2 => evRun rest s2
    | none => none

/-- Concrete audio frame for the C2 witness: two s16 samples in a
five-byte first plane. -/
def c2Frame : Frame := ⟨0, 0, AV_SAMPLE_FMT_S16, 2, [[10, 20, 30, 40, 50]], 0⟩

/-- Concrete formatter state used by several witnesses: geometry 720x480,
pixel format 0, raw buffer of 4 bytes. -/
def c0St : St := ⟨720, 480, 0, 4, 0, 0, 0, []⟩

/-- Decoder behaviour producing no frames, used by several witnesses. -/
def quietBeh : DecBehavior := ⟨0, [], RecvTail.eagain⟩

/-- Loop configuration with the video stream at index 0 and the audio stream
at index 1, used by concrete runs. -/
def cfg0 : LoopCfg := ⟨0, 1⟩

/-- A video frame matching the geometry captured in `c0St` and `st7`. -/
def matchFrame : Frame := ⟨720, 480, 0, 0, [], 0⟩

/-- A video packet whose submission the decoder rejects. -/
def errPkt : Pkt := ⟨0, ⟨-1, [], RecvTail.eagain⟩⟩

/-- A video packet the decoder accepts, yielding one matching frame. -/
def okPkt : Pkt := ⟨0, ⟨0, [matchFrame], RecvTail.eagain⟩⟩

/-- State for the C7 counterexample: geometry 720x480, buffer size 1 byte. -/
def st7 : St := ⟨720, 480, 0, 1, 0, 0, 0, []⟩

/-- Concrete source metadata for the C9 witness. -/
def c9Meta : Dict :=
  [("creation_time", "2020"), ("artist", "x"), ("product_name", "cam"),
   ("title", "clip")]

/-- Helper: the audio formatter's status is 0 on every frame, so the
receive-format loop never stops early on the audio path. -/
theorem process_frames_audio_ret (fs : List Frame) (st : St) :
    (process_frames false fs st).1 = 0 := by
  induction fs generalizing st with
  | nil => rfl
  | cons f fs ih =>
    show (process_frames false (f :: fs) st).1 = 0
    simp only [process_frames]
    rw [if_neg]
    · exact ih _
    · show ¬ ((output_audio_frame st f).1 < 0)
      simp [output_audio_frame]

/-- C1: a decoded video frame whose width, height or pixel format differs
from the values captured at stream open makes `output_video_frame` return -1
and write nothing; a matching frame bumps the frame counter, appends exactly
`video_dst_bufsize` bytes to the video file and returns 0. -/
theorem C1_video_geometry_check (st : St) (frame : Frame) :
    output_video_frame st frame =
      if frame.width = st.width ∧ frame.height = st.height ∧
          frame.format = st.pix_fmt then
        (0, { st with
                video_frame_count := st.video_frame_count + 1,
                video_dst_file_bytes :=
                  st.video_dst_file_bytes + st.video_dst_bufsize })
      else (-1, st) := by
  unfold output_video_frame
  split_ifs with h1 h2 <;> tauto

/-- C2: the audio formatter appends to the audio file exactly
`nb_samples * av_get_bytes_per_sample format` bytes, taken from the first
plane only (given that the plane holds at least that many bytes, as decoded
frames do). -/
theorem C2_audio_byte_count (st : St) (frame : Frame)
    (h : frame.nb_samples * av_get_bytes_per_sample frame.format ≤
          (frame.extended_data.headD []).length) :
    (output_audio_frame st frame).2.audio_dst_file_data =
      st.audio_dst_file_data ++
        (frame.extended_data.headD []).take
          (frame.nb_samples * av_get_bytes_per_sample frame.format) ∧
    ((output_audio_frame st frame).2.audio_dst_file_data).length =
      st.audio_dst_file_data.length +
        frame.nb_samples * av_get_bytes_per_sample frame.format := by
  refine ⟨rfl, ?_⟩
  have h2 := h
  rw [List.headD_eq_head?] at h2
  simp [output_audio_frame, List.length_take, Nat.min_eq_left h2]

/-- Witness for C2 at a concrete frame and state. -/
theorem C2_audio_byte_count_witness :
    c2Frame.nb_samples * av_get_bytes_per_sample c2Frame.format ≤
      (c2Frame.extended_data.headD []).length ∧
    ((output_audio_frame c0St c2Frame).2.audio_dst_file_data =
      c0St.audio_dst_file_data ++
        (c2Frame.extended_data.headD []).take
          (c2Frame.nb_samples * av_get_bytes_per_sample c2Frame.format) ∧
    ((output_audio_frame c0St c2Frame).2.audio_dst_file_data).length =
      c0St.audio_dst_file_data.length +
        c2Frame.nb_samples * av_get_bytes_per_sample c2Frame.format) :=
  ⟨by decide, C2_audio_byte_count c0St c2Frame (by decide)⟩

/-- C8: `get_format_from_sample_fmt` is a pure function of its arguments:
for each of the five supported formats it returns 0 and the
endianness-resolved name, for every other format it returns -1 leaving the
name NULL. -/
theorem C8_sample_fmt_lookup (be : Bool) (fmt : Int) :
    get_format_from_sample_fmt be fmt =
      if fmt = AV_SAMPLE_FMT_U8 then (0, some "u8")
      else if fmt = AV_SAMPLE_FMT_S16 then
        (0, some (if be then "s16be" else "s16le"))
      else if fmt = AV_SAMPLE_FMT_S32 then
        (0, some (if be then "s32be" else "s32le"))
      else if fmt = AV_SAMPLE_FMT_FLT then
        (0, some (if be then "f32be" else "f32le"))
      else if fmt = AV_SAMPLE_FMT_DBL then
        (0, some (if be then "f64be" else "f64le"))
      else (-1, none) := by
  have u8 : AV_SAMPLE_FMT_U8 = 0 := rfl
  have s16 : AV_SAMPLE_FMT_S16 = 1 := rfl
  have s32 : AV_SAMPLE_FMT_S32 = 2 := rfl
  have flt : AV_SAMPLE_FMT_FLT = 3 := rfl
  have dbl : AV_SAMPLE_FMT_DBL = 4 := rfl
  rw [u8, s16, s32, flt, dbl]
  by_cases h0 : fmt = 0
  · subst h0; cases be <;> rfl
  by_cases h1 : fmt = 1
  · subst h1; cases be <;> rfl
  by_cases h2 : fmt = 2
  · subst h2; cases be <;> rfl
  by_cases h3 : fmt = 3
  · subst h3; cases be <;> rfl
  by_cases h4 : fmt = 4
  · subst h4; cases be <;> rfl
  have e0 : (fmt == AV_SAMPLE_FMT_U8) = false := by
    rw [u8]; exact beq_eq_false_iff_ne.mpr h0
  have e1 : (fmt == AV_SAMPLE_FMT_S16) = false := by
    rw [s16]; exact beq_eq_false_iff_ne.mpr h1
  have e2 : (fmt == AV_SAMPLE_FMT_S32) = false := by
    rw [s32]; exact beq_eq_false_iff_ne.mpr h2
  have e3 : (fmt == AV_SAMPLE_FMT_FLT) = false := by
    rw [flt]; exact beq_eq_false_iff_ne.mpr h3
  have e4 : (fmt == AV_SAMPLE_FMT_DBL) = false := by
    rw [dbl]; exact beq_eq_false_iff_ne.mpr h4
  simp [get_format_from_sample_fmt, sample_fmt_entries, List.find?,
        e0, e1, e2, e3, e4, h0, h1, h2, h3, h4]

/-- C10: the audio formatter returns 0 on every frame, and a decode of an
audio packet whose submission is accepted and whose receive run ends in
EAGAIN or EOF returns 0 whatever frames it produced — an audio frame can
never be what stops the read loop. -/
theorem C10_audio_formatting_never_fails (st : St) (frame : Frame)
    (beh : DecBehavior) (hsend : 0 ≤ beh.sendRet)
    (htail : beh.tail = RecvTail.eagain ∨ beh.tail = RecvTail.eof) :
    (output_audio_frame st frame).1 = 0 ∧
    (decode_packet false beh st).1 = 0 := by
  constructor
  · rfl
  · unfold decode_packet
    rw [if_neg (by omega)]
    rw [if_neg]
    · rcases htail with ht | ht <;> rw [ht]
    · rw [process_frames_audio_ret]
      omega

/-- Witness for C10 at a concrete state, frame and decoder behaviour. -/
theorem C10_audio_formatting_never_fails_witness :
    (0 ≤ quietBeh.sendRet ∧
      (quietBeh.tail = RecvTail.eagain ∨ quietBeh.tail = RecvTail.eof)) ∧
    ((output_audio_frame c0St c2Frame).1 = 0 ∧
      (decode_packet false quietBeh c0St).1 = 0) :=
  ⟨⟨by decide, by decide⟩,
    C10_audio_formatting_never_fails c0St c2Frame quietBeh (by decide)
      (by decide)⟩

/-- C5 counterexample: with the video codec context failing and the audio
one succeeding (video file and allocation fine), the run does not continue
with audio — it aborts at the audio destination `fopen`, whose filename is
hard-coded NULL. -/
theorem C5_counterexample :
    demuxer_setup (SetupEnv.mk false true true true) =
      SetupResult.fatalAudioFile ∧
    demuxer_setup (SetupEnv.mk false true true true) ≠
      SetupResult.ok false true := by
  decide

/-- C5 amended: selection-failure tolerance is one-directional.  Provided
the video destination file opens and the raw buffer allocates, an audio
codec-context failure is tolerated — the run continues with video alone —
and the neither-stream fatal fires exactly when neither context opened; but
every successful audio selection aborts the run at the audio destination
`fopen`, because `audio_dst_filename` is hard-coded NULL. -/
theorem C5_selection_tolerance_one_directional (env : SetupEnv)
    (hvf : env.videoFileOk = true) (hal : env.allocOk = true) :
    demuxer_setup env =
      if env.audioCtxOk then SetupResult.fatalAudioFile
      else if env.videoCtxOk then SetupResult.ok true false
      else SetupResult.fatalNoStream := by
  obtain ⟨v, a, vf, al⟩ := env
  simp only at hvf hal
  subst hvf hal
  cases v <;> cases a <;> rfl

/-- Witness for C5 amended: audio context fails, video succeeds, run
proceeds with video only. -/
theorem C5_selection_tolerance_one_directional_witness :
    ((SetupEnv.mk true false true true).videoFileOk = true ∧
      (SetupEnv.mk true false true true).allocOk = true) ∧
    demuxer_setup (SetupEnv.mk true false true true) =
      (if (SetupEnv.mk true false true true).audioCtxOk then
        SetupResult.fatalAudioFile
      else if (SetupEnv.mk true false true true).videoCtxOk then
        SetupResult.ok true false
      else SetupResult.fatalNoStream) :=
  ⟨⟨rfl, rfl⟩,
    C5_selection_tolerance_one_directional (SetupEnv.mk true false true true)
      rfl rfl⟩

/-- C4 counterexample: with both decoders open and any flush behaviours, the
audio decoder receives zero flush submissions, not one — the audio flush call
is commented out in the source. -/
theorem C4_counterexample :
    ¬ ((demuxer_flush true true quietBeh quietBeh c0St).2.2 = 1) := by
  decide

/-- C4 amended: after the read loop the video decoder, when open, is flushed
exactly once; the audio decoder is never flushed. -/
theorem C4_flush_video_only (videoOpen audioOpen : Bool)
    (vBeh aBeh : DecBehavior) (st : St) :
    (demuxer_flush videoOpen audioOpen vBeh aBeh st).2.1 =
      (if videoOpen then 1 else 0) ∧
    (demuxer_flush videoOpen audioOpen vBeh aBeh st).2.2 = 0 := by
  cases videoOpen <;> simp [demuxer_flush]

/-- C3 counterexample: with a first packet whose submission is rejected and a
second, decodable packet behind it, the loop reads only one packet and the
second packet's frame is never written — a per-packet decode error does
terminate the read loop. -/
theorem C3_counterexample :
    ((demuxer_read_loop cfg0 [errPkt, okPkt] c0St 0 0).2.2).count Ev.pktRead
        = 1 ∧
    (demuxer_read_loop cfg0 [errPkt, okPkt] c0St 0 0).1.video_frame_count
        = 0 ∧
    (demuxer_read_loop cfg0 [errPkt, okPkt] c0St 0 0).2.1 = -1 := by
  decide

/-- C3 amended: a packet whose submission the decoder rejects is logged and
released (the state is untouched and the trace is read-then-unref), but its
negative status breaks the read loop: no later packet is read or decoded. -/
theorem C3_decode_error_breaks_loop (cfg : LoopCfg) (p : Pkt) (ps : List Pkt)
    (st : St) (fn : Nat) (hroute : p.stream_index = cfg.video_stream_idx)
    (hsend : p.beh.sendRet < 0) :
    demuxer_read_loop cfg (p :: ps) st 0 fn =
      (st, p.beh.sendRet, [Ev.pktRead, Ev.pktUnref]) := by
  simp only [demuxer_read_loop, decode_packet]
  rw [if_pos hroute, if_pos hsend]
  simp [hsend]

/-- Witness for C3 amended: the rejected packet `errPkt` alone. -/
theorem C3_decode_error_breaks_loop_witness :
    (errPkt.stream_index = cfg0.video_stream_idx ∧ errPkt.beh.sendRet < 0) ∧
    demuxer_read_loop cfg0 (errPkt :: [okPkt]) c0St 0 0 =
      (c0St, errPkt.beh.sendRet, [Ev.pktRead, Ev.pktUnref]) :=
  ⟨⟨by decide, by decide⟩,
    C3_decode_error_breaks_loop cfg0 errPkt [okPkt] c0St 0 (by decide)
      (by decide)⟩

/-- Helper: the ownership automaton runs an appended trace by running the
pieces in sequence. -/
theorem evRun_append (a b : List Ev) (s : Nat × Nat) :
    evRun (a ++ b) s = (evRun a s).bind (fun s2 => evRun b s2) := by
  induction a generalizing s with
  | nil => rfl
  | cons e rest ih =>
    show evRun (e :: (rest ++ b)) s = _
    simp only [evRun]
    cases evStep e s with
    | none => rfl
    | some s2 => exact ih s2

/-- Helper: the receive-format loop hands frames out and releases each one
before touching the next, whatever the packet balance `p` is. -/
theorem process_frames_evRun (isVideo : Bool) (fs : List Frame) (st : St)
    (p : Nat) :
    evRun (process_frames isVideo fs st).2.2 (p, 0) = some (p, 0) := by
  induction fs generalizing st with
  | nil => rfl
  | cons f fs ih =>
    simp only [process_frames]
    by_cases hr :
        (if isVideo then output_video_frame st f
         else output_audio_frame st f).1 < 0
    · rw [if_pos hr]
      rfl
    · rw [if_neg hr]
      exact ih _

/-- Helper: a whole `decode_packet` call emits only balanced frame events. -/
theorem decode_packet_evRun (isVideo : Bool) (beh : DecBehavior) (st : St)
    (p : Nat) :
    evRun (decode_packet isVideo beh st).2.2 (p, 0) = some (p, 0) := by
  unfold decode_packet
  by_cases hs : beh.sendRet < 0
  · rw [if_pos hs]
    rfl
  · rw [if_neg hs]
    simp only []
    by_cases hr : (process_frames isVideo beh.frames st).1 < 0
    · rw [if_pos hr]
      exact process_frames_evRun isVideo beh.frames st p
    · rw [if_neg hr]
      cases beh.tail <;> exact process_frames_evRun isVideo beh.frames st p

/-- Helper: one read-loop iteration trace (read, decode events, unref) keeps
the ownership discipline and returns every unit. -/
theorem evRun_iter (a : List Ev) (h : evRun a (1, 0) = some (1, 0)) :
    evRun (Ev.pktRead :: (a ++ [Ev.pktUnref])) (0, 0) = some (0, 0) := by
  show evRun (a ++ [Ev.pktUnref]) (1, 0) = some (0, 0)
  rw [evRun_append, h]
  rfl

/-- Helper: an iteration trace followed by the rest of the run. -/
theorem evRun_iter_append (a b : List Ev) (h : evRun a (1, 0) = some (1, 0))
    (hb : evRun b (0, 0) = some (0, 0)) :
    evRun ((Ev.pktRead :: (a ++ [Ev.pktUnref])) ++ b) (0, 0) = some (0, 0) := by
  rw [List.cons_append]
  show evRun ((a ++ [Ev.pktUnref]) ++ b) (1, 0) = some (0, 0)
  rw [evRun_append, evRun_append, h]
  show (evRun [Ev.pktUnref] (1, 0)).bind (fun s2 => evRun b s2) = some (0, 0)
  show evRun b (0, 0) = some (0, 0)
  exact hb

/-- C6: the read loop's ownership trace is accepted by the one-live-unit
automaton from the empty state back to the empty state: every packet read is
released before the next read (at most one live packet), every frame handed
out by the decoder is released immediately after formatting — also when the
formatter returned an error — and nothing is left live at exit. -/
theorem C6_single_live_unit (cfg : LoopCfg) (pkts : List Pkt) (st : St)
    (ret : Int) (fn : Nat) :
    evRun (demuxer_read_loop cfg pkts st ret fn).2.2 (0, 0) = some (0, 0) := by
  induction pkts generalizing st ret fn with
  | nil => rfl
  | cons p ps ih =>
    simp only [demuxer_read_loop]
    set d :=
      (if p.stream_index = cfg.video_stream_idx then
        decode_packet true p.beh st
      else if p.stream_index = cfg.audio_stream_idx then
        decode_packet false p.beh st
      else (ret, st, ([] : List Ev))) with hdef
    have hd : evRun d.2.2 (1, 0) = some (1, 0) := by
      rw [hdef]
      split_ifs
      · exact decode_packet_evRun true p.beh st 1
      · exact decode_packet_evRun false p.beh st 1
      · rfl
    split_ifs
    · exact evRun_iter d.2.2 hd
    · exact evRun_iter d.2.2 hd
    · exact evRun_iter_append d.2.2 _ hd (ih _ _ _)

/-- Helper: both formatters leave the captured raw-buffer size unchanged. -/
theorem format_step_bufsize (isVideo : Bool) (st : St) (f : Frame) :
    (if isVideo then output_video_frame st f
     else output_audio_frame st f).2.video_dst_bufsize =
      st.video_dst_bufsize := by
  cases isVideo
  · rfl
  · unfold output_video_frame
    split_ifs <;> rfl

/-- Helper: one formatted frame grows the video file by at most
`video_dst_bufsize` bytes. -/
theorem format_step_bytes (isVideo : Bool) (st : St) (f : Frame) :
    (if isVideo then output_video_frame st f
     else output_audio_frame st f).2.video_dst_file_bytes ≤
      st.video_dst_file_bytes + st.video_dst_bufsize := by
  cases isVideo
  · exact Nat.le_add_right _ _
  · unfold output_video_frame
    split_ifs <;> first
      | exact Nat.le_add_right _ _
      | exact Nat.le_refl _

/-- Helper: the receive-format loop preserves the raw-buffer size. -/
theorem process_frames_bufsize (isVideo : Bool) (fs : List Frame) (st : St) :
    (process_frames isVideo fs st).2.1.video_dst_bufsize =
      st.video_dst_bufsize := by
  induction fs generalizing st with
  | nil => rfl
  | cons f fs ih =>
    simp only [process_frames]
    by_cases hr :
        (if isVideo then output_video_frame st f
         else output_audio_frame st f).1 < 0
    · rw [if_pos hr]
      exact format_step_bufsize isVideo st f
    · rw [if_neg hr]
      rw [ih]
      exact format_step_bufsize isVideo st f

/-- Helper: the receive-format loop grows the video file by at most one
buffer per frame handed out. -/
theorem process_frames_bytes (isVideo : Bool) (fs : List Frame) (st : St) :
    (process_frames isVideo fs st).2.1.video_dst_file_bytes ≤
      st.video_dst_file_bytes + fs.length * st.video_dst_bufsize := by
  induction fs generalizing st with
  | nil => exact Nat.le_add_right _ _
  | cons f fs ih =>
    simp only [process_frames, List.length_cons]
    by_cases hr :
        (if isVideo then output_video_frame st f
         else output_audio_frame st f).1 < 0
    · rw [if_pos hr]
      refine le_trans (format_step_bytes isVideo st f) ?_
      have h1 : st.video_dst_bufsize ≤
          (fs.length + 1) * st.video_dst_bufsize := by
        calc st.video_dst_bufsize = 1 * st.video_dst_bufsize :=
              (one_mul _).symm
          _ ≤ (fs.length + 1) * st.video_dst_bufsize :=
              Nat.mul_le_mul_right _ (Nat.succ_le_succ (Nat.zero_le _))
      exact Nat.add_le_add_left h1 _
    · rw [if_neg hr]
      refine le_trans (ih _) ?_
      rw [format_step_bufsize isVideo st f]
      refine le_trans
        (Nat.add_le_add_right (format_step_bytes isVideo st f) _) ?_
      have : st.video_dst_file_bytes + st.video_dst_bufsize +
          fs.length * st.video_dst_bufsize =
          st.video_dst_file_bytes +
            (fs.length + 1) * st.video_dst_bufsize := by ring
      exact le_of_eq this

/-- Helper: a whole `decode_packet` call grows the video file by at most one
buffer per frame of the submission, and preserves the buffer size. -/
theorem decode_packet_bytes (isVideo : Bool) (beh : DecBehavior) (st : St) :
    (decode_packet isVideo beh st).2.1.video_dst_file_bytes ≤
      st.video_dst_file_bytes +
        beh.frames.length * st.video_dst_bufsize ∧
    (decode_packet isVideo beh st).2.1.video_dst_bufsize =
      st.video_dst_bufsize := by
  unfold decode_packet
  by_cases hs : beh.sendRet < 0
  · rw [if_pos hs]
    exact ⟨Nat.le_add_right _ _, rfl⟩
  · rw [if_neg hs]
    simp only []
    by_cases hr : (process_frames isVideo beh.frames st).1 < 0
    · rw [if_pos hr]
      exact ⟨process_frames_bytes isVideo beh.frames st,
        process_frames_bufsize isVideo beh.frames st⟩
    · rw [if_neg hr]
      cases beh.tail <;>
        exact ⟨process_frames_bytes isVideo beh.frames st,
          process_frames_bufsize isVideo beh.frames st⟩

/-- Helper: the read loop processes at most `301 - min fn 300` further
packets, so starting from `frame_nums = fn` it grows the video file by at
most that many buffers when each packet yields at most one frame. -/
theorem demuxer_read_loop_bytes (cfg : LoopCfg) (pkts : List Pkt) (st : St)
    (ret : Int) (fn : Nat) :
    (∀ p ∈ pkts, p.beh.frames.length ≤ 1) →
    (demuxer_read_loop cfg pkts st ret fn).1.video_dst_file_bytes ≤
      st.video_dst_file_bytes +
        (301 - min fn 300) * st.video_dst_bufsize := by
  induction pkts generalizing st ret fn with
  | nil =>
    intro _
    exact Nat.le_add_right _ _
  | cons p ps ih =>
    intro hframes
    have hp : p.beh.frames.length ≤ 1 := hframes p (List.mem_cons_self p ps)
    have hps : ∀ q ∈ ps, q.beh.frames.length ≤ 1 :=
      fun q hq => hframes q (List.mem_cons_of_mem p hq)
    simp only [demuxer_read_loop]
    set d :=
      (if p.stream_index = cfg.video_stream_idx then
        decode_packet true p.beh st
      else if p.stream_index = cfg.audio_stream_idx then
        decode_packet false p.beh st
      else (ret, st, ([] : List Ev))) with hdef
    have hbuf : d.2.1.video_dst_bufsize = st.video_dst_bufsize := by
      rw [hdef]
      split_ifs
      · exact (decode_packet_bytes true p.beh st).2
      · exact (decode_packet_bytes false p.beh st).2
      · rfl
    have honeb : p.beh.frames.length * st.video_dst_bufsize ≤
        st.video_dst_bufsize := by
      calc p.beh.frames.length * st.video_dst_bufsize ≤
            1 * st.video_dst_bufsize := Nat.mul_le_mul_right _ hp
        _ = st.video_dst_bufsize := one_mul _
    have hbytes : d.2.1.video_dst_file_bytes ≤
        st.video_dst_file_bytes + st.video_dst_bufsize := by
      rw [hdef]
      split_ifs
      · exact le_trans (decode_packet_bytes true p.beh st).1
          (Nat.add_le_add_left honeb _)
      · exact le_trans (decode_packet_bytes false p.beh st).1
          (Nat.add_le_add_left honeb _)
      · exact Nat.le_add_right _ _
    have hk : 1 ≤ 301 - min fn 300 := by omega
    have hstep : st.video_dst_file_bytes + st.video_dst_bufsize ≤
        st.video_dst_file_bytes +
          (301 - min fn 300) * st.video_dst_bufsize := by
      refine Nat.add_le_add_left ?_ _
      calc st.video_dst_bufsize = 1 * st.video_dst_bufsize := (one_mul _).symm
        _ ≤ (301 - min fn 300) * st.video_dst_bufsize :=
            Nat.mul_le_mul_right _ hk
    split_ifs with hneg hcap
    · exact le_trans hbytes hstep
    · exact le_trans hbytes hstep
    · have hfn : fn < 300 := by omega
      have ihh := ih d.2.1 d.1 (fn + 1) hps
      rw [hbuf] at ihh
      refine le_trans ihh ?_
      have hm : 301 - min (fn + 1) 300 = 300 - fn := by omega
      have hm2 : 301 - min fn 300 = (300 - fn) + 1 := by omega
      rw [hm, hm2]
      refine le_trans
        (Nat.add_le_add_right hbytes ((300 - fn) * st.video_dst_bufsize)) ?_
      have : st.video_dst_file_bytes + st.video_dst_bufsize +
          (300 - fn) * st.video_dst_bufsize =
          st.video_dst_file_bytes +
            ((300 - fn) + 1) * st.video_dst_bufsize := by ring
      exact le_of_eq this

set_option maxRecDepth 40000 in
/-- C7 counterexample: 301 video packets of constant geometry, one frame
each, get through the read loop before the 300 cap breaks it, so the video
file reaches 301 buffers — more than 300 × frameBytes. -/
theorem C7_counterexample :
    (demuxer_read_loop cfg0 (List.replicate 301 okPkt) st7 0 0).1.video_dst_file_bytes
        = 301 ∧
    300 * st7.video_dst_bufsize < 301 := by
  constructor
  · rfl
  · decide

/-- C7 amended: the cap stops the loop only after at most 301 packets were
processed, so a run whose decoder yields at most one frame per packet grows
the video raw file during the read loop by at most
`301 × video_dst_bufsize` bytes (the post-loop flush may append further
buffered frames). -/
theorem C7_frame_cap_bound (cfg : LoopCfg) (pkts : List Pkt) (st : St)
    (hframes : ∀ p ∈ pkts, p.beh.frames.length ≤ 1) :
    (demuxer_read_loop cfg pkts st 0 0).1.video_dst_file_bytes ≤
      st.video_dst_file_bytes + 301 * st.video_dst_bufsize := by
  have h := demuxer_read_loop_bytes cfg pkts st 0 0 hframes
  simpa using h

/-- Witness for C7 amended at a concrete one-packet run. -/
theorem C7_frame_cap_bound_witness :
    (∀ p ∈ [okPkt], p.beh.frames.length ≤ 1) ∧
    (demuxer_read_loop cfg0 [okPkt] st7 0 0).1.video_dst_file_bytes ≤
      st7.video_dst_file_bytes + 301 * st7.video_dst_bufsize :=
  ⟨by decide, C7_frame_cap_bound cfg0 [okPkt] st7 (by decide)⟩

/-- Helper: a key found in neither half is not found in the concatenation. -/
theorem av_dict_get_append_none (d1 d2 : Dict) (k : String)
    (h1 : av_dict_get d1 k = none) (h2 : av_dict_get d2 k = none) :
    av_dict_get (d1 ++ d2) k = none := by
  induction d1 with
  | nil => exact h2
  | cons kv tl ih =>
    unfold av_dict_get at h1 ⊢
    rw [List.cons_append]
    rw [List.find?_cons] at h1 ⊢
    cases hkv : (kv.1 == k)
    · simp only [hkv] at h1 ⊢
      exact ih h1
    · simp only [hkv] at h1
      simp at h1

/-- Helper: copying into a dictionary that holds none of the source's keys
(with the source's keys pairwise distinct) appends the source unchanged. -/
theorem av_dict_copy_fresh (src : Dict) :
    ∀ dst : Dict, (src.map Prod.fst).Nodup →
      (∀ kv ∈ src, av_dict_get dst kv.1 = none) →
      av_dict_copy_dont_overwrite dst src = dst ++ src := by
  induction src with
  | nil =>
    intro dst _ _
    simp [av_dict_copy_dont_overwrite]
  | cons kv tl ih =>
    intro dst hnd habs
    rw [List.map_cons] at hnd
    have hnd2 := List.nodup_cons.mp hnd
    have hk : av_dict_get dst kv.1 = none := habs kv (List.mem_cons_self _ _)
    have hset : av_dict_set_dont_overwrite dst kv.1 kv.2 = dst ++ [kv] := by
      unfold av_dict_set_dont_overwrite
      rw [hk]
      rfl
    have hstep : av_dict_copy_dont_overwrite dst (kv :: tl) =
        av_dict_copy_dont_overwrite (dst ++ [kv]) tl := by
      unfold av_dict_copy_dont_overwrite
      rw [List.foldl_cons, hset]
    rw [hstep]
    have htl : av_dict_copy_dont_overwrite (dst ++ [kv]) tl =
        (dst ++ [kv]) ++ tl := by
      apply ih
      · exact hnd2.2
      · intro q hq
        apply av_dict_get_append_none
        · exact habs q (List.mem_cons_of_mem _ hq)
        · have hne : (kv.1 == q.1) = false := by
            refine beq_eq_false_iff_ne.mpr ?_
            intro he
            exact hnd2.1 (he ▸ List.mem_map_of_mem Prod.fst hq)
          unfold av_dict_get
          rw [List.find?_cons]
          simp [hne]
    rw [htl, List.append_assoc]
    rfl

/-- C9: on the transcode path the output container's metadata equals the
source container's metadata with exactly the entries keyed creation_time,
company_name, product_name and product_version removed; every other entry is
copied unchanged (assuming the source's keys are pairwise distinct, as in a
real `AVDictionary`). -/
theorem C9_metadata_stripped (srcMeta : Dict)
    (h : (srcMeta.map Prod.fst).Nodup) :
    encode_video_metadata srcMeta =
      srcMeta.filter (fun kv => ! strippedKeys.contains kv.1) := by
  unfold encode_video_metadata
  have hcopy : av_dict_copy_dont_overwrite [] srcMeta = srcMeta := by
    have hz := av_dict_copy_fresh srcMeta [] h (fun kv _ => rfl)
    simpa using hz
  rw [hcopy]
  unfold av_dict_set_null
  rw [List.filter_filter, List.filter_filter, List.filter_filter]
  apply List.filter_congr
  intro kv _
  by_cases e1 : kv.1 = "creation_time"
  · rw [e1]
    rfl
  by_cases e2 : kv.1 = "company_name"
  · rw [e2]
    rfl
  by_cases e3 : kv.1 = "product_name"
  · rw [e3]
    rfl
  by_cases e4 : kv.1 = "product_version"
  · rw [e4]
    rfl
  have b1 : (kv.1 == "creation_time") = false := beq_eq_false_iff_ne.mpr e1
  have b2 : (kv.1 == "company_name") = false := beq_eq_false_iff_ne.mpr e2
  have b3 : (kv.1 == "product_name") = false := beq_eq_false_iff_ne.mpr e3
  have b4 : (kv.1 == "product_version") = false := beq_eq_false_iff_ne.mpr e4
  simp only [strippedKeys, bne, b1, b2, b3, b4, List.contains_cons,
    List.contains_nil, Bool.not_false, Bool.and_true, Bool.true_and,
    Bool.or_false, Bool.false_or]

/-- Witness for C9: the concrete dictionary keeps artist and title and loses
creation_time and product_name. -/
theorem C9_metadata_stripped_witness :
    (c9Meta.map Prod.fst).Nodup ∧
    encode_video_metadata c9Meta =
      c9Meta.filter (fun kv => ! strippedKeys.contains kv.1) :=
  ⟨by decide, C9_metadata_stripped c9Meta (by decide)⟩

end Demuxing
